import Mathlib

/-!
Verification development for the wg-gesucht-containerized repository.

The repository ships a React configuration UI (src/frontend), the SQL
schema of its persistence layer (init.sql) and container bootstrap
scripts.  The listing-acquisition engine itself (scheduler, crawler,
filter/dedup pipeline, message composer, dispatcher) is not among the
shipped files; where a property is decided by that engine, the
definitions below are modelled from the specification and say so in
their doc comments.  Everything else is a direct shallow embedding of
the TypeScript and SQL sources.
-/

namespace WgGesucht

/-! ## UI data model (src/frontend/src/types/ConfigTypes.tsx) -/

/-- Filters of a saved search, field for field from the SearchConfig
interface of ConfigTypes.tsx. -/
structure UIFilters where
  location : String
  maxPrice : Int
  minSize : Int
  dateRange : String
  propertyTypes : List String
  rentTypes : List String
  wgTypes : List String
  districts : List String
  gender : String
  smoking : String
  deriving DecidableEq

/-- Run statistics of a saved search, from ConfigTypes.tsx. -/
structure UIStats where
  totalFound : Int
  newListings : Int
  lastRun : String
  deriving DecidableEq

/-- The SearchConfig interface of ConfigTypes.tsx. -/
structure UISearchConfig where
  id : String
  name : String
  active : Bool
  filters : UIFilters
  stats : UIStats
  deriving DecidableEq

/-- The SearchFormData interface of ConfigTypes.tsx: every numeric field
arrives as a raw string from a text input. -/
structure SearchFormData where
  id : Option String
  name : String
  location : String
  propertyTypes : List String
  rentTypes : List String
  dateFrom : String
  dateTo : String
  districts : List String
  minPrice : String
  maxPrice : String
  minSize : String
  maxSize : String
  wgTypes : List String
  gender : String
  smoking : String
  ageMin : String
  ageMax : String
  onlyWithImages : Bool
  excludeContactedAds : Bool
  deriving DecidableEq

/-! ## JavaScript parseInt, as the UI save paths call it -/

/-- Accumulate the value of a digit string in the given base. -/
def natOfDigits (base : Nat) (val : Char → Nat) (cs : List Char) : Nat :=
  cs.foldl (fun a c => a * base + val c) 0

/-- Hexadecimal digit test, for the 0x prefix parseInt honours. -/
def isHexDigitChar (c : Char) : Bool :=
  c.isDigit || (('a' ≤ c && c ≤ 'f') || ('A' ≤ c && c ≤ 'F'))

/-- Value of a hexadecimal digit character. -/
def hexVal (c : Char) : Nat :=
  if c.isDigit then c.toNat - 48
  else if 'a' ≤ c && c ≤ 'f' then c.toNat - 87
  else c.toNat - 55

/-- Value of a decimal digit character. -/
def decVal (c : Char) : Nat := c.toNat - 48

/-- Longest digit run at the head of the input; none when there is no
digit at all (parseInt returns NaN then). -/
def parseDigitRun (isDigitFn : Char → Bool) (val : Char → Nat) (base : Nat)
    (cs : List Char) : Option Nat :=
  let ds := cs.takeWhile isDigitFn
  if ds.isEmpty then none else some (natOfDigits base val ds)

/-- Magnitude part of parseInt with the radix argument omitted: a 0x or
0X prefix switches to base 16, otherwise base 10. -/
def jsParseIntMag : List Char → Option Nat
  | '0' :: 'x' :: rest => parseDigitRun isHexDigitChar hexVal 16 rest
  | '0' :: 'X' :: rest => parseDigitRun isHexDigitChar hexVal 16 rest
  | rest => parseDigitRun Char.isDigit decVal 10 rest

/-- Sign handling of parseInt. -/
def jsParseIntSigned : List Char → Option Int
  | '-' :: rest => (jsParseIntMag rest).map (fun n => -(n : Int))
  | '+' :: rest => (jsParseIntMag rest).map (fun n => (n : Int))
  | rest => (jsParseIntMag rest).map (fun n => (n : Int))

/-- JavaScript parseInt(s) with the radix argument omitted: skip leading
whitespace, optional sign, longest digit run; none models NaN. -/
def jsParseInt (s : String) : Option Int :=
  jsParseIntSigned (s.data.dropWhile Char.isWhitespace)

/-- The idiom parseInt(x) || 0 of handleSaveSearch (SearchView.tsx lines
175, 176, 199, 200): NaN is replaced by the default 0. -/
def parseIntOrZero (s : String) : Int := (jsParseInt s).getD 0

/-! ## handleSaveSearch (src/frontend/src/components/SearchView.tsx) -/

/-- Create branch of handleSaveSearch (SearchView.tsx lines 190 to 216):
builds a new, active SearchConfig from the form data; numeric fields go
through parseInt(x) || 0; the id is String(searches.length + 1). -/
def handleSaveSearchCreate (searchesLen : Nat) (data : SearchFormData) :
    UISearchConfig :=
  { id := toString (searchesLen + 1)
    name := data.name
    active := true
    filters :=
      { location := data.location
        maxPrice := parseIntOrZero data.maxPrice
        minSize := parseIntOrZero data.minSize
        dateRange := data.dateFrom ++ " - " ++ data.dateTo
        propertyTypes := data.propertyTypes
        rentTypes := data.rentTypes
        wgTypes := data.wgTypes
        districts := data.districts
        gender := data.gender
        smoking := data.smoking }
    stats := { totalFound := 0, newListings := 0, lastRun := "Never" } }

/-- Edit branch of handleSaveSearch (SearchView.tsx lines 166 to 189),
applied to the matching search: name and filters are replaced, numeric
fields again through parseInt(x) || 0; stats are kept. -/
def handleSaveSearchEdit (search : UISearchConfig) (data : SearchFormData) :
    UISearchConfig :=
  { search with
    name := data.name
    filters :=
      { location := data.location
        maxPrice := parseIntOrZero data.maxPrice
        minSize := parseIntOrZero data.minSize
        dateRange := data.dateFrom ++ " - " ++ data.dateTo
        propertyTypes := data.propertyTypes
        rentTypes := data.rentTypes
        wgTypes := data.wgTypes
        districts := data.districts
        gender := data.gender
        smoking := data.smoking } }

/-! ## Automation settings (AutomateSubpage part of SearchConfig.tsx) -/

/-- Settings of the automation subpage.  messageDelay is Option Int:
none models the NaN that parseInt returns on non-numeric input and that
the component stores unchecked. -/
structure AutomationSettings where
  autoPrepare : Bool
  autoSend : Bool
  defaultGPTModel : String
  messageDelay : Option Int
  deriving DecidableEq

/-- The messageDelay input handler (SearchConfig.tsx line 504):
updateSettings(messageDelay, parseInt(e.target.value)) stores the raw
parseInt result without any range or type validation. -/
def updateMessageDelay (settings : AutomationSettings) (value : String) :
    AutomationSettings :=
  { settings with messageDelay := jsParseInt value }

/-! ## generateDefaultName (SearchConfig.tsx lines 72 to 83) -/

/-- The baseText constant of generateDefaultName. -/
def baseText : String := "Your Search"

/-- The template literal of generateDefaultName: baseText, a space, the
counter. -/
def proposedName (counter : Nat) : String :=
  baseText ++ " " ++ toString counter

/-- existingSearches.some(search => search.name === proposedName). -/
def nameTaken (existingSearches : List UISearchConfig) (nm : String) : Bool :=
  existingSearches.any (fun search => search.name == nm)

/-- The while loop of generateDefaultName, made total with explicit
fuel: while the proposed name is taken, increment the counter.  The
source loops unboundedly; existingSearches.length + 1 steps always
suffice (proved below), so the fuelled loop computes the same name. -/
def defaultNameLoop (existingSearches : List UISearchConfig) :
    Nat → Nat → String
  | counter, 0 => proposedName counter
  | counter, fuel + 1 =>
    if nameTaken existingSearches (proposedName counter) then
      defaultNameLoop existingSearches (counter + 1) fuel
    else
      proposedName counter

/-- generateDefaultName (SearchConfig.tsx lines 72 to 83): first counter
from 1 upward whose proposed name no existing search carries. -/
def generateDefaultName (existingSearches : List UISearchConfig) : String :=
  defaultNameLoop existingSearches 1 (existingSearches.length + 1)

/-- Digits of a natural number, most significant first, as Nat.repr
renders them; used to reason about the names the counter produces. -/
def digitsRec (n : Nat) : List Char :=
  if h : n < 10 then [Nat.digitChar n]
  else digitsRec (n / 10) ++ [Nat.digitChar (n % 10)]
  decreasing_by exact Nat.div_lt_self (by omega) (by omega)

/-! ## Persistence schema (init.sql) -/

/-- A row of the searches table (init.sql lines 33 to 59).  Option Int
models a nullable column; dates are carried as day numbers.  The serial
id and timestamps are bookkeeping the claims never consult and are left
out. -/
structure SearchRow where
  user_id : Option Nat
  name : String
  location : String
  property_types : List String
  rent_types : List String
  date_range_start : Option Int
  date_range_end : Option Int
  districts : List String
  min_price : Option Int
  max_price : Option Int
  min_size : Option Int
  max_size : Option Int
  wg_types : List String
  gender_preference : String
  smoking_preference : String
  age_min : Option Int
  age_max : Option Int
  only_with_images : Bool
  exclude_contacted_ads : Bool
  active : Bool
  total_found : Int
  new_listings : Int
  last_run : Option Int
  deriving DecidableEq

/-- One CHECK (column >= 0) constraint: SQL checks pass on NULL. -/
def sqlCheckNonneg : Option Int → Bool
  | none => true
  | some v => decide (0 ≤ v)

/-- Conjunction of the six CHECK constraints the searches DDL declares:
min_price, max_price, min_size, max_size, age_min, age_max, each only
required to be non-negative.  The DDL states no relation between the min
and max of a range. -/
def searchRowChecks (r : SearchRow) : Bool :=
  sqlCheckNonneg r.min_price && sqlCheckNonneg r.max_price &&
    sqlCheckNonneg r.min_size && sqlCheckNonneg r.max_size &&
      sqlCheckNonneg r.age_min && sqlCheckNonneg r.age_max

/-- INSERT into searches: the row persists exactly when its CHECK
constraints hold. -/
def persistSearchRow (db : List SearchRow) (r : SearchRow) :
    Option (List SearchRow) :=
  if searchRowChecks r then some (db ++ [r]) else none

/-- A row of the individual_listings table (init.sql lines 61 to 83),
restricted to the columns the claims consult; listing_id is the UNIQUE
dedup key. -/
structure ListingRow where
  search_config_id : Nat
  listing_id : String
  listing_title : String
  listing_url : String
  location : String
  price : Int
  size : Int
  deposit : Int
  utilities : Int
  other_costs : Int
  buyout : Int
  schufa_required : Bool
  availability_status : String
  online_since : String
  contacted : Bool
  deriving DecidableEq

/-- The listing_id column of every row, in table order. -/
def listingIdsOf (db : List ListingRow) : List String :=
  db.map (fun r => r.listing_id)

/-- Atomic insert-if-absent keyed on the UNIQUE listing_id column
(init.sql line 64): inserting an id already present fails, leaving the
table unchanged, rather than overwriting the existing row. -/
def insertIfAbsent (db : List ListingRow) (row : ListingRow) :
    List ListingRow × Bool :=
  if db.any (fun r => r.listing_id == row.listing_id) then (db, false)
  else (db ++ [row], true)

/-! ## Filter and dedup engine

The engine itself is not among the shipped files; the definitions in
this section are modelled from the specification (sections 4.3 and 6)
and persist through the insert-if-absent operation of the schema
above. -/

/-- Modelled from the spec: a candidate record as the ListingCrawler
parses it (section 4.2); the crawler is not under src/.  Only the fields
the filter pipeline and the composer consult. -/
structure RawListing where
  listingId : String
  title : String
  url : String
  location : String
  price : Int
  size : Int
  district : String
  contactName : String
  listingText : String
  deriving DecidableEq

/-- Modelled from the spec: the filter half of a SearchConfig as the
FilterAndDedupEngine consults it (section 4.3); the engine is not under
src/. -/
structure FilterConfig where
  minPrice : Option Int
  maxPrice : Option Int
  minSize : Option Int
  maxSize : Option Int
  districts : List String
  deriving DecidableEq

/-- Modelled from the spec: an upper bound accepts a value up to and
including the bound (section 8: boundary price = maxPrice is accepted);
an absent bound accepts everything. -/
def boundAtMost (value : Int) : Option Int → Bool
  | none => true
  | some bound => decide (value ≤ bound)

/-- Modelled from the spec: a lower bound accepts a value from the bound
upward; an absent bound accepts everything. -/
def boundAtLeast (value : Int) : Option Int → Bool
  | none => true
  | some bound => decide (bound ≤ value)

/-- Modelled from the spec: district membership; an empty district set
means no district restriction. -/
def districtPasses (district : String) (districts : List String) : Bool :=
  districts.isEmpty || districts.contains district

/-- Modelled from the spec: the filter predicate of section 4.3 (price
and size bounds, district membership); the engine is not under src/. -/
def passesFilter (cfg : FilterConfig) (raw : RawListing) : Bool :=
  boundAtLeast raw.price cfg.minPrice && boundAtMost raw.price cfg.maxPrice &&
    boundAtLeast raw.size cfg.minSize && boundAtMost raw.size cfg.maxSize &&
      districtPasses raw.district cfg.districts

/-- Modelled from the spec: the result record of process (section 4.3),
together with the seen-id set as it stands after the run. -/
structure ProcessResult where
  accepted : List RawListing
  duplicates : Nat
  rejectedByFilter : Nat
  seen : List String
  deriving DecidableEq

/-- Modelled from the spec: process(rawListings, searchConfig, seenIds)
of section 4.3; the engine is not under src/.  For each raw listing in
source enumeration order: (a) reject a listingId already seen,
(b) reject on a failed filter predicate, (c) otherwise accept and add
the listingId to seenIds atomically with emission. -/
def process (cfg : FilterConfig) : List RawListing → List String → ProcessResult
  | [], seen => { accepted := [], duplicates := 0, rejectedByFilter := 0, seen := seen }
  | raw :: rest, seen =>
    if raw.listingId ∈ seen then
      let r := process cfg rest seen
      { r with duplicates := r.duplicates + 1 }
    else if passesFilter cfg raw then
      let r := process cfg rest (raw.listingId :: seen)
      { r with accepted := raw :: r.accepted }
    else
      let r := process cfg rest seen
      { r with rejectedByFilter := r.rejectedByFilter + 1 }

/-- Modelled from the spec: the Listing row created for an accepted
candidate, owned by the discovering search, contacted false, cost and
status columns at their DDL defaults (section 3). -/
def toListingRow (configId : Nat) (raw : RawListing) : ListingRow :=
  { search_config_id := configId
    listing_id := raw.listingId
    listing_title := raw.title
    listing_url := raw.url
    location := raw.location
    price := raw.price
    size := raw.size
    deposit := 0
    utilities := 0
    other_costs := 0
    buyout := 0
    schufa_required := false
    availability_status := "Unknown"
    online_since := "Unknown"
    contacted := false }

/-- Persist a batch of accepted rows one by one through insert-if-absent. -/
def persistAccepted (db : List ListingRow) (rows : List ListingRow) :
    List ListingRow :=
  rows.foldl (fun d row => (insertIfAbsent d row).1) db

/-- Modelled from the spec: one filter/dedup run of the pipeline for one
config (sections 4.3 and 6); the scheduler is not under src/.  The seen
ids are the listing ids already persisted (dedup across the entire
history via the unique key); accepted candidates are persisted through
insert-if-absent; the reported newListings count is len(accepted). -/
def runPipeline (db : List ListingRow) (cfg : FilterConfig) (configId : Nat)
    (raws : List RawListing) : List ListingRow × Nat :=
  let r := process cfg raws (listingIdsOf db)
  (persistAccepted db (r.accepted.map (toListingRow configId)), r.accepted.length)

/-! ## Message composer

Modelled from the spec (section 4.4); the composer (submit_wg.py of the
README) is not among the shipped files.  The receipient substitution is
documented in the README part of src/etc/entrypoint.sh (lines 125 to
128). -/

/-- A message template for one language. -/
structure Template where
  language : String
  body : String
  deriving DecidableEq

/-- The OutreachMessage of section 3: language, keyword, body. -/
structure OutreachMessage where
  language : String
  keyword : String
  body : String
  deriving DecidableEq

/-- Modelled from the spec: the LLM service boundary of section 6, two
call shapes, classify(text) and generate(template, language, keyword,
doList, dontList); either may fail, returning none. -/
structure LLMClient where
  classify : String → Option (String × String)
  generate : String → String → String → List String → List String → Option String

/-- Modelled from the spec: the run environment a composer could
covertly consult, wall clock and randomness; the determinism requirement
of section 4.4 demands that the output not depend on it. -/
structure Env where
  clock : Nat
  randomSeed : Nat
  deriving DecidableEq

/-- Replace every occurrence of the pattern in the text, scanning left
to right; fuel is the text length, which bounds the number of steps. -/
def listReplaceAux (pat repl : List Char) : Nat → List Char → List Char
  | 0, text => text
  | _ + 1, [] => []
  | fuel + 1, c :: rest =>
    if pat.isPrefixOf (c :: rest) then
      repl ++ listReplaceAux pat repl fuel (rest.drop (pat.length - 1))
    else
      c :: listReplaceAux pat repl fuel rest

/-- String replacement of every occurrence of pat by repl. -/
def replaceAll (s pat repl : String) : String :=
  if pat.data.isEmpty then s
  else (listReplaceAux pat.data repl.data s.data.length s.data).asString

/-- Modelled from the spec: the deterministic fallback of the composer
(section 4.4): the first available template for the default language,
the substring receipient replaced by the listing contact name, no
further personalization; total, so it never fails.  With no template for
the default language at all it still returns a message, with an empty
body. -/
def composeFallback (listing : RawListing) (templates : List Template)
    (defaultLanguage : String) : OutreachMessage :=
  match templates.find? (fun t => t.language == defaultLanguage) with
  | some t =>
    { language := defaultLanguage
      keyword := ""
      body := replaceAll t.body "receipient" listing.contactName }
  | none => { language := defaultLanguage, keyword := "", body := "" }

/-- Modelled from the spec: compose(listing, template, doList, dontList,
llmClient?) of section 4.4; the composer is not under src/.  With a
configured client: one classify call for language and keyword, then one
generate call over the template chosen for the detected language; any
failure on that path falls back to composeFallback.  The environment is
never consulted (the determinism requirement of section 4.4). -/
def compose (env : Env) (listing : RawListing) (templates : List Template)
    (defaultLanguage : String) (doList dontList : List String)
    (llmClient : Option LLMClient) : OutreachMessage :=
  match llmClient with
  | none => composeFallback listing templates defaultLanguage
  | some client =>
    match client.classify listing.listingText with
    | none => composeFallback listing templates defaultLanguage
    | some (lang, kw) =>
      match templates.find? (fun t => t.language == lang) with
      | none => composeFallback listing templates defaultLanguage
      | some t =>
        match client.generate t.body lang kw doList dontList with
        | none => composeFallback listing templates defaultLanguage
        | some draft => { language := lang, keyword := kw, body := draft }

/-! ## Outreach dispatcher (modelled from the spec, section 4.5) -/

/-- The result of a send attempt. -/
inductive SendResult where
  | sent
  | skipped
  | dispatchError
  deriving DecidableEq

/-- The dispatch policy of section 4.5: auto-send against manual review. -/
structure DispatchPolicy where
  autoSend : Bool
  deriving DecidableEq

/-- Modelled from the spec: send(session, listing, message, policy) of
section 4.5; the dispatcher is not under src/.  Returns the result, the
listing afterwards, and the number of external-site contacts performed.
A listing already contacted short-circuits to Skipped with no external
contact and no state change; autoSend = false skips without contacting
the site; otherwise the message goes out (siteAccepts says whether the
external site took it) and contacted flips to true exactly on success. -/
def send (listing : ListingRow) (message : OutreachMessage)
    (policy : DispatchPolicy) (siteAccepts : Bool) :
    SendResult × ListingRow × Nat :=
  if listing.contacted then (SendResult.skipped, listing, 0)
  else if policy.autoSend = false then (SendResult.skipped, listing, 0)
  else if siteAccepts then (SendResult.sent, { listing with contacted := true }, 1)
  else (SendResult.dispatchError, listing, 1)

/-! ## Run statistics (modelled from the spec, sections 3 and 4.6) -/

/-- The per-config stats columns of the searches table (total_found,
new_listings, last_run). -/
structure RunStats where
  totalFound : Int
  newListings : Int
  lastRun : Option Nat
  deriving DecidableEq

/-- The stages of the run state machine of section 4.6. -/
inductive Stage where
  | authenticating
  | crawling
  | filtering
  | composing
  | dispatching
  deriving DecidableEq

/-- A terminal run outcome: Completed with the counters of the run, or
Failed at some stage. -/
inductive RunOutcome where
  | completed (totalFound newListings : Int)
  | failed (stage : Stage)
  deriving DecidableEq

/-- Modelled from the spec: the stats update at run end (sections 3 and
4.6); the scheduler is not under src/.  Completed writes all three
fields; Failed still writes lastRun, a run attempt occurred, and leaves
totalFound and newListings at their prior values. -/
def applyRunOutcome (stats : RunStats) (outcome : RunOutcome) (now : Nat) :
    RunStats :=
  match outcome with
  | RunOutcome.completed tf nl =>
    { totalFound := tf, newListings := nl, lastRun := some now }
  | RunOutcome.failed _ => { stats with lastRun := some now }

/-! ## The filter-range invariant as the claims state it -/

/-- Non-negativity of an optional bound, absent bounds passing. -/
def nonnegOpt : Option Int → Bool
  | none => true
  | some v => decide (0 ≤ v)

/-- Whenever both ends of a range are given, min is at most max. -/
def bothGivenLe : Option Int → Option Int → Bool
  | some lo, some hi => decide (lo ≤ hi)
  | _, _ => true

/-- The filter-range invariant in the words of the claim: all six bounds
non-negative and min at most max for each of the three ranges whenever
both ends are given.  Stated over the persisted row to compare with what
the schema actually enforces. -/
def filterRangeInvariant (r : SearchRow) : Bool :=
  nonnegOpt r.min_price && nonnegOpt r.max_price &&
    nonnegOpt r.min_size && nonnegOpt r.max_size &&
      nonnegOpt r.age_min && nonnegOpt r.age_max &&
        bothGivenLe r.min_price r.max_price &&
          bothGivenLe r.min_size r.max_size &&
            bothGivenLe r.age_min r.age_max

/-! ## Concrete values used by witnesses and counterexamples -/

/-- Form data whose numeric fields are unparsable text. -/
def formAbc : SearchFormData :=
  { id := none
    name := "Munich center"
    location := "Munich"
    propertyTypes := []
    rentTypes := []
    dateFrom := ""
    dateTo := ""
    districts := []
    minPrice := ""
    maxPrice := "abc"
    minSize := "xyz"
    maxSize := ""
    wgTypes := []
    gender := "egal"
    smoking := "egal"
    ageMin := ""
    ageMax := ""
    onlyWithImages := false
    excludeContactedAds := false }

/-- Automation settings as the component initialises them. -/
def settings0 : AutomationSettings :=
  { autoPrepare := false
    autoSend := false
    defaultGPTModel := "gpt-3.5-turbo"
    messageDelay := some 60 }

/-- An existing search, used when exercising the edit branch. -/
def searchW : UISearchConfig :=
  { id := "1"
    name := "Berlin - Mitte"
    active := true
    filters :=
      { location := "Mitte, Berlin"
        maxPrice := 800
        minSize := 15
        dateRange := ""
        propertyTypes := []
        rentTypes := []
        wgTypes := []
        districts := []
        gender := "egal"
        smoking := "egal" }
    stats := { totalFound := 24, newListings := 3, lastRun := "Never" } }

/-- A searches row with min_price above max_price and every CHECK
constraint satisfied. -/
def rowMinGtMax : SearchRow :=
  { user_id := none
    name := "bad range"
    location := "Munich"
    property_types := []
    rent_types := []
    date_range_start := none
    date_range_end := none
    districts := []
    min_price := some 100
    max_price := some 50
    min_size := none
    max_size := none
    wg_types := []
    gender_preference := "egal"
    smoking_preference := "egal"
    age_min := none
    age_max := none
    only_with_images := false
    exclude_contacted_ads := false
    active := true
    total_found := 0
    new_listings := 0
    last_run := none }

/-- A searches row with a well-ordered price range. -/
def rowGood : SearchRow :=
  { rowMinGtMax with name := "good range", min_price := some 10, max_price := some 20 }

/-- A qualifying candidate listing. -/
def rawA : RawListing :=
  { listingId := "wg-1"
    title := "Cozy Room"
    url := "u1"
    location := "Munich"
    price := 500
    size := 20
    district := "2114"
    contactName := "Alex"
    listingText := "a cozy room" }

/-- A candidate listing over the price bound of cfgW. -/
def rawB : RawListing :=
  { listingId := "wg-2"
    title := "Pricey Room"
    url := "u2"
    location := "Munich"
    price := 900
    size := 25
    district := "2114"
    contactName := "Kim"
    listingText := "a pricey room" }

/-- The end-to-end filter set of section 8 of the spec. -/
def cfgW : FilterConfig :=
  { minPrice := none
    maxPrice := some 800
    minSize := some 15
    maxSize := none
    districts := ["2114"] }

/-- A filter set with only maxPrice 800 given. -/
def cfgMax800 : FilterConfig :=
  { minPrice := none, maxPrice := some 800, minSize := none, maxSize := none, districts := [] }

/-- A filter set with only maxPrice 1000 given. -/
def cfgMax1000 : FilterConfig :=
  { minPrice := none, maxPrice := some 1000, minSize := none, maxSize := none, districts := [] }

/-- A candidate listing priced at exactly 900. -/
def raw900 : RawListing :=
  { rawA with listingId := "wg-900", price := 900 }

/-- A listing row already contacted. -/
def contactedRow : ListingRow :=
  { toListingRow 1 rawA with contacted := true }

/-- A composed message. -/
def msgW : OutreachMessage :=
  { language := "english", keyword := "room", body := "Hello Alex" }

/-- The auto-send policy. -/
def policyAuto : DispatchPolicy := { autoSend := true }

/-- An english template in the documented format. -/
def templateEn : Template :=
  { language := "english", body := "Hello receipient, I saw the room." }

/-- A german template, listed first. -/
def templateDe : Template :=
  { language := "german", body := "Hallo receipient!" }

/-- The template list used by the composer witnesses. -/
def templatesW : List Template := [templateDe, templateEn]

/-- An LLM client both of whose calls fail. -/
def failingClient : LLMClient :=
  { classify := fun _ => none, generate := fun _ _ _ _ _ => none }

/-- A concrete environment. -/
def envW : Env := { clock := 123, randomSeed := 7 }

/-! ## Theorems -/

/-- Helper: the claim-side non-negativity test coincides with the SQL
CHECK test. -/
theorem nonnegOpt_eq_sqlCheckNonneg (o : Option Int) :
    nonnegOpt o = sqlCheckNonneg o := by
  cases o <;> rfl

/-- C2 counterexample: fed the unparsable maxPrice "abc", the save path
succeeds and stores the default 0, and the messageDelay path stores the
NaN that parseInt returned; neither path produces a typed ConfigError,
refuting the claim that invalid configuration input is rejected rather
than silently defaulted. -/
theorem save_accepts_invalid_counterexample :
    jsParseInt "abc" = none ∧
    (handleSaveSearchCreate 1 formAbc).filters.maxPrice = 0 ∧
    (updateMessageDelay settings0 "abc").messageDelay = none := by
  decide

/-- C2 amended: the configuration input paths that exist in the
repository are total and raise no typed error: a numeric form field that
parseInt cannot parse is silently replaced by the default 0 in the
created or edited config, and messageDelay always stores the raw
parseInt result, NaN included, without validation. -/
theorem save_paths_substitute_defaults (searchesLen : Nat)
    (search : UISearchConfig) (data : SearchFormData)
    (hmax : jsParseInt data.maxPrice = none)
    (hmin : jsParseInt data.minSize = none) :
    (handleSaveSearchCreate searchesLen data).filters.maxPrice = 0 ∧
    (handleSaveSearchCreate searchesLen data).filters.minSize = 0 ∧
    (handleSaveSearchEdit search data).filters.maxPrice = 0 ∧
    (∀ settings value,
      (updateMessageDelay settings value).messageDelay = jsParseInt value) := by
  refine ⟨?_, ?_, ?_, fun _ _ => rfl⟩ <;>
    simp [handleSaveSearchCreate, handleSaveSearchEdit, parseIntOrZero, hmax, hmin]

/-- C2 witness: the amended statement at the concrete form data with
maxPrice "abc" and minSize "xyz". -/
theorem save_paths_substitute_defaults_witness :
    (handleSaveSearchCreate 1 formAbc).filters.maxPrice = 0 ∧
    (handleSaveSearchCreate 1 formAbc).filters.minSize = 0 ∧
    (handleSaveSearchEdit searchW formAbc).filters.maxPrice = 0 ∧
    (∀ settings value,
      (updateMessageDelay settings value).messageDelay = jsParseInt value) :=
  save_paths_substitute_defaults 1 searchW formAbc (by decide) (by decide)

/-- C3 counterexample: the row rowMinGtMax with min_price = 100 above
max_price = 50 satisfies every CHECK constraint the searches DDL
declares and persists, yet violates the min-at-most-max half of the
claimed invariant; persisting it does not preserve the invariant. -/
theorem schema_allows_min_above_max :
    persistSearchRow [] rowMinGtMax = some [rowMinGtMax] ∧
    rowMinGtMax.min_price = some 100 ∧
    rowMinGtMax.max_price = some 50 ∧
    filterRangeInvariant rowMinGtMax = false := by
  decide

/-- C3 amended: every row the searches DDL lets through has all six
range bounds non-negative where given, enforced by the CHECK
constraints; the min-at-most-max half of the invariant is not enforced
by the schema. -/
theorem persisted_search_bounds_nonneg (db : List SearchRow) (r : SearchRow)
    (db2 : List SearchRow) (h : persistSearchRow db r = some db2) :
    nonnegOpt r.min_price = true ∧ nonnegOpt r.max_price = true ∧
    nonnegOpt r.min_size = true ∧ nonnegOpt r.max_size = true ∧
    nonnegOpt r.age_min = true ∧ nonnegOpt r.age_max = true := by
  have hc : searchRowChecks r = true := by
    by_contra hfalse
    simp [persistSearchRow, Bool.not_eq_true] at h hfalse
    simp [hfalse] at h
  simp only [searchRowChecks, Bool.and_eq_true] at hc
  obtain ⟨⟨⟨⟨⟨h1, h2⟩, h3⟩, h4⟩, h5⟩, h6⟩ := hc
  simp [nonnegOpt_eq_sqlCheckNonneg, h1, h2, h3, h4, h5, h6]

/-- C3 witness: the amended statement at a concrete well-formed row. -/
theorem persisted_search_bounds_nonneg_witness :
    nonnegOpt rowGood.min_price = true ∧ nonnegOpt rowGood.max_price = true ∧
    nonnegOpt rowGood.min_size = true ∧ nonnegOpt rowGood.max_size = true ∧
    nonnegOpt rowGood.age_min = true ∧ nonnegOpt rowGood.age_max = true :=
  persisted_search_bounds_nonneg [] rowGood ([] ++ [rowGood]) (by decide)

/-- C4: send on a listing whose contacted flag is already true returns
Skipped, performs no external-site contact and changes no state, for
every message, policy and site behaviour; such a listing is never
re-dispatched. -/
theorem send_contacted_is_skipped_noop (listing : ListingRow)
    (message : OutreachMessage) (policy : DispatchPolicy) (siteAccepts : Bool)
    (h : listing.contacted = true) :
    send listing message policy siteAccepts = (SendResult.skipped, listing, 0) := by
  simp [send, h]

/-- C4 witness: the statement at a concrete contacted listing. -/
theorem send_contacted_is_skipped_noop_witness :
    send contactedRow msgW policyAuto true = (SendResult.skipped, contactedRow, 0) :=
  send_contacted_is_skipped_noop contactedRow msgW policyAuto true (by decide)

/-- C5: with no LLM client, or a failing classify call, or a failing
generate call, compose returns the first available template for the
default language with exactly one transformation, the substring
receipient replaced by the listing contact name; composing is total, so
this fallback never fails. -/
theorem compose_fallback_first_template (env : Env) (listing : RawListing)
    (templates : List Template) (defaultLanguage : String)
    (doList dontList : List String) (t : Template)
    (hfind : templates.find? (fun tm => tm.language == defaultLanguage) = some t) :
    compose env listing templates defaultLanguage doList dontList none =
      { language := defaultLanguage
        keyword := ""
        body := replaceAll t.body "receipient" listing.contactName } ∧
    (∀ client : LLMClient, client.classify listing.listingText = none →
      compose env listing templates defaultLanguage doList dontList (some client) =
        { language := defaultLanguage
          keyword := ""
          body := replaceAll t.body "receipient" listing.contactName }) ∧
    (∀ (client : LLMClient) (lang kw : String) (t2 : Template),
      client.classify listing.listingText = some (lang, kw) →
      templates.find? (fun tm => tm.language == lang) = some t2 →
      client.generate t2.body lang kw doList dontList = none →
      compose env listing templates defaultLanguage doList dontList (some client) =
        { language := defaultLanguage
          keyword := ""
          body := replaceAll t.body "receipient" listing.contactName }) := by
  refine ⟨?_, ?_, ?_⟩
  · simp [compose, composeFallback, hfind]
  · intro client hc
    simp [compose, hc, composeFallback, hfind]
  · intro client lang kw t2 hc hf hg
    simp [compose, hc, hf, hg, composeFallback, hfind]

/-- C5 witness: the statement at a concrete listing, template list whose
first english entry is templateEn, and the always-failing client. -/
theorem compose_fallback_first_template_witness :
    compose envW rawA templatesW "english" [] [] none =
      { language := "english"
        keyword := ""
        body := replaceAll templateEn.body "receipient" rawA.contactName } :=
  (compose_fallback_first_template envW rawA templatesW "english" [] []
    templateEn (by decide)).1

/-- C6: compose is deterministic: the environment (wall clock and
randomness) never influences the output, so for one fixed input and one
fixed stubbed client two invocations agree; in particular with no LLM
client the body is identical across repeated calls. -/
theorem compose_env_independent (env1 env2 : Env) (listing : RawListing)
    (templates : List Template) (defaultLanguage : String)
    (doList dontList : List String) (llmClient : Option LLMClient) :
    (compose env1 listing templates defaultLanguage doList dontList llmClient =
      compose env2 listing templates defaultLanguage doList dontList llmClient) ∧
    ((compose env1 listing templates defaultLanguage doList dontList none).body =
      (compose env2 listing templates defaultLanguage doList dontList none).body) :=
  ⟨rfl, rfl⟩

/-- C7: a Failed run leaves totalFound and newListings exactly as they
were and still updates lastRun; a Completed run writes all three stats
fields; hence lastRun is written on every run attempt. -/
theorem failed_run_frames_stats (stats : RunStats) (stage : Stage)
    (tf nl : Int) (now : Nat) :
    (applyRunOutcome stats (RunOutcome.failed stage) now).totalFound = stats.totalFound ∧
    (applyRunOutcome stats (RunOutcome.failed stage) now).newListings = stats.newListings ∧
    (applyRunOutcome stats (RunOutcome.failed stage) now).lastRun = some now ∧
    applyRunOutcome stats (RunOutcome.completed tf nl) now =
      { totalFound := tf, newListings := nl, lastRun := some now } ∧
    (∀ outcome : RunOutcome, (applyRunOutcome stats outcome now).lastRun = some now) := by
  refine ⟨rfl, rfl, rfl, rfl, ?_⟩
  intro outcome
  cases outcome <;> rfl

/-- C9: the price upper bound is inclusive: a price passes exactly when
it is at most the bound, a failed price bound fails the whole filter, a
900 listing is rejected under maxPrice 800 and accepted under maxPrice
1000, and a price exactly at the bound is accepted. -/
theorem price_upper_bound_inclusive :
    (∀ price bound : Int, boundAtMost price (some bound) = true ↔ price ≤ bound) ∧
    (∀ (cfg : FilterConfig) (raw : RawListing),
      boundAtMost raw.price cfg.maxPrice = false → passesFilter cfg raw = false) ∧
    passesFilter cfgMax800 raw900 = false ∧
    passesFilter cfgMax1000 raw900 = true ∧
    (∀ bound : Int, boundAtMost bound (some bound) = true) := by
  refine ⟨?_, ?_, by decide, by decide, ?_⟩
  · intro price bound
    simp [boundAtMost]
  · intro cfg raw h
    simp [passesFilter, h]
  · intro bound
    simp [boundAtMost]

/-- Helper: the seen set after process is the accepted ids, reversed, in
front of the initial seen set. -/
theorem process_seen_eq (cfg : FilterConfig) :
    ∀ (raws : List RawListing) (seen : List String),
      (process cfg raws seen).seen =
        ((process cfg raws seen).accepted.map RawListing.listingId).reverse ++ seen := by
  intro raws
  induction raws with
  | nil => intro seen; simp [process]
  | cons raw rest ih =>
    intro seen
    by_cases h1 : raw.listingId ∈ seen
    · simp [process, h1, ih]
    · by_cases h2 : passesFilter cfg raw
      · simp [process, h1, h2, ih]
      · simp [process, h1, h2, ih]

/-- Helper: membership in the seen set after process. -/
theorem mem_process_seen (cfg : FilterConfig) (raws : List RawListing)
    (seen : List String) (x : String) :
    x ∈ (process cfg raws seen).seen ↔
      x ∈ (process cfg raws seen).accepted.map RawListing.listingId ∨ x ∈ seen := by
  rw [process_seen_eq]
  simp

/-- Helper: accepted listings keep source enumeration order. -/
theorem process_accepted_sublist (cfg : FilterConfig) :
    ∀ (raws : List RawListing) (seen : List String),
      ((process cfg raws seen).accepted).Sublist raws := by
  intro raws
  induction raws with
  | nil => intro seen; simp [process]
  | cons raw rest ih =>
    intro seen
    by_cases h1 : raw.listingId ∈ seen
    · simp only [process, if_pos h1]
      exact List.Sublist.cons raw (ih seen)
    · by_cases h2 : passesFilter cfg raw
      · simp only [process, if_neg h1, if_pos h2]
        exact List.Sublist.cons₂ raw (ih _)
      · simp only [process, if_neg h1, if_neg h2]
        exact List.Sublist.cons raw (ih seen)

/-- Helper: accepted ids within one run are pairwise distinct and none
of them is in the initial seen set. -/
theorem process_accepted_fresh (cfg : FilterConfig) :
    ∀ (raws : List RawListing) (seen : List String),
      ((process cfg raws seen).accepted.map RawListing.listingId).Nodup ∧
      ∀ x ∈ (process cfg raws seen).accepted.map RawListing.listingId, x ∉ seen := by
  intro raws
  induction raws with
  | nil => intro seen; simp [process]
  | cons raw rest ih =>
    intro seen
    by_cases h1 : raw.listingId ∈ seen
    · simpa [process, h1] using ih seen
    · by_cases h2 : passesFilter cfg raw
      · obtain ⟨ihn, ihf⟩ := ih (raw.listingId :: seen)
        refine ⟨?_, ?_⟩
        · simp only [process, if_neg h1, if_pos h2, List.map_cons, List.nodup_cons]
          exact ⟨fun hmem => (ihf _ hmem) (List.mem_cons_self _ _), ihn⟩
        · intro x hx
          simp only [process, if_neg h1, if_pos h2, List.map_cons, List.mem_cons] at hx
          rcases hx with rfl | hx
          · exact h1
          · exact fun hxs => (ihf x hx) (List.mem_cons_of_mem _ hxs)
      · simpa [process, h1, h2] using ih seen

/-- Helper: once every id a run from the smaller seen set accepts is
already in the bigger seen set, a run from the bigger set accepts
nothing. -/
theorem process_accepted_nil (cfg : FilterConfig) :
    ∀ (raws : List RawListing) (seen seenBig : List String),
      (∀ x, x ∈ seen → x ∈ seenBig) →
      (∀ x, x ∈ (process cfg raws seen).accepted.map RawListing.listingId →
        x ∈ seenBig) →
      (process cfg raws seenBig).accepted = [] := by
  intro raws
  induction raws with
  | nil =>
    intro seen seenBig hs ha
    simp [process]
  | cons raw rest ih =>
    intro seen seenBig hs ha
    by_cases hb : raw.listingId ∈ seenBig
    · simp only [process, if_pos hb]
      by_cases h1 : raw.listingId ∈ seen
      · exact ih seen seenBig hs (fun x hx => ha x (by simpa [process, h1] using hx))
      · by_cases h2 : passesFilter cfg raw
        · refine ih (raw.listingId :: seen) seenBig ?_ ?_
          · intro x hx
            rcases List.mem_cons.mp hx with rfl | hx
            · exact hb
            · exact hs x hx
          · intro x hx
            refine ha x ?_
            simp only [process, if_neg h1, if_pos h2, List.map_cons, List.mem_cons]
            exact Or.inr hx
        · exact ih seen seenBig hs
            (fun x hx => ha x (by simpa [process, h1, h2] using hx))
    · have h1 : raw.listingId ∉ seen := fun hmem => hb (hs _ hmem)
      by_cases h2 : passesFilter cfg raw
      · refine absurd (ha raw.listingId ?_) hb
        simp [process, h1, h2]
      · simp only [process, if_neg hb, if_neg h2]
        exact ih seen seenBig hs
          (fun x hx => ha x (by simpa [process, h1, h2] using hx))

/-- C8: process emits accepted listings in source enumeration order (a
sublist of the input, never re-sorted), the pipeline reports newListings
as the length of the accepted list, no two accepted listings of one run
share a listingId, and every accepted id is recorded in the seen set the
run hands on. -/
theorem process_order_and_dedup (cfg : FilterConfig) (raws : List RawListing)
    (seen : List String) (db : List ListingRow) (configId : Nat) :
    ((process cfg raws seen).accepted).Sublist raws ∧
    (runPipeline db cfg configId raws).2 =
      (process cfg raws (listingIdsOf db)).accepted.length ∧
    ((process cfg raws seen).accepted.map RawListing.listingId).Nodup ∧
    ((process cfg raws seen).accepted.map RawListing.listingId).all
      (fun x => (process cfg raws seen).seen.contains x) = true := by
  refine ⟨process_accepted_sublist cfg raws seen, rfl,
    (process_accepted_fresh cfg raws seen).1, ?_⟩
  rw [List.all_eq_true]
  intro x hx
  have hmem : x ∈ (process cfg raws seen).seen :=
    (mem_process_seen cfg raws seen x).mpr (Or.inl hx)
  simpa using hmem

/-- Helper: any over the id column agrees with membership in it. -/
theorem any_listing_id_eq (db : List ListingRow) (x : String) :
    (db.any (fun r => r.listing_id == x) = true) ↔ x ∈ listingIdsOf db := by
  simp [listingIdsOf, List.any_eq_true]

/-- Helper: ids already in the table, and ids of the rows being
persisted, are all in the table after persistAccepted. -/
theorem mem_listingIdsOf_persistAccepted :
    ∀ (rows db : List ListingRow) (x : String),
      (x ∈ listingIdsOf db ∨ x ∈ rows.map ListingRow.listing_id) →
      x ∈ listingIdsOf (persistAccepted db rows) := by
  intro rows
  induction rows with
  | nil =>
    intro db x h
    simpa [persistAccepted] using h.resolve_right (by simp)
  | cons row rest ih =>
    intro db x h
    have hstep : ∀ y, (y ∈ listingIdsOf db ∨ y = row.listing_id) →
        y ∈ listingIdsOf (insertIfAbsent db row).1 := by
      intro y hy
      by_cases hp : db.any (fun r => r.listing_id == row.listing_id) = true
      · rcases hy with hy | rfl
        · simpa [insertIfAbsent, hp] using hy
        · simpa [insertIfAbsent, hp] using (any_listing_id_eq db _).mp hp
      · rcases hy with hy | rfl
        · simp only [insertIfAbsent, if_neg hp, listingIdsOf, List.map_append,
            List.mem_append]
          exact Or.inl hy
        · simp [insertIfAbsent, hp, listingIdsOf]
    rw [show persistAccepted db (row :: rest) =
      persistAccepted (insertIfAbsent db row).1 rest from rfl]
    rcases h with h | h
    · exact ih _ x (Or.inl (hstep x (Or.inl h)))
    · simp only [List.map_cons, List.mem_cons] at h
      rcases h with rfl | h
      · exact ih _ _ (Or.inl (hstep _ (Or.inr rfl)))
      · exact ih _ x (Or.inr h)

/-- Helper: insert-if-absent keeps the id column pairwise distinct. -/
theorem persistAccepted_nodup :
    ∀ (rows db : List ListingRow), (listingIdsOf db).Nodup →
      (listingIdsOf (persistAccepted db rows)).Nodup := by
  intro rows
  induction rows with
  | nil =>
    intro db h
    simpa [persistAccepted] using h
  | cons row rest ih =>
    intro db h
    rw [show persistAccepted db (row :: rest) =
      persistAccepted (insertIfAbsent db row).1 rest from rfl]
    apply ih
    by_cases hp : db.any (fun r => r.listing_id == row.listing_id) = true
    · simpa [insertIfAbsent, hp] using h
    · have hnot : row.listing_id ∉ listingIdsOf db := fun hm =>
        hp ((any_listing_id_eq db _).mpr hm)
      simp only [insertIfAbsent, if_neg hp, listingIdsOf, List.map_append,
        List.map_cons, List.map_nil]
      refine List.Nodup.append h (List.nodup_singleton _) ?_
      intro a ha hb
      rw [List.mem_singleton] at hb
      exact hnot (hb ▸ ha)

/-- Helper: one pipeline run unfolded to its persistAccepted form. -/
theorem runPipeline_fst (db : List ListingRow) (cfg : FilterConfig)
    (configId : Nat) (raws : List RawListing) :
    (runPipeline db cfg configId raws).1 =
      persistAccepted db
        ((process cfg raws (listingIdsOf db)).accepted.map (toListingRow configId)) :=
  rfl

/-- C1: with pairwise-distinct listing ids in the table, one pipeline
run keeps them pairwise distinct, so at most one row per listingId ever
exists, and running the same config and raw batch a second time accepts
nothing: the table is returned unchanged and newListings is 0. -/
theorem pipeline_run_twice_idempotent (db : List ListingRow)
    (cfg : FilterConfig) (configId : Nat) (raws : List RawListing)
    (h : (listingIdsOf db).Nodup) :
    (listingIdsOf (runPipeline db cfg configId raws).1).Nodup ∧
    runPipeline (runPipeline db cfg configId raws).1 cfg configId raws =
      ((runPipeline db cfg configId raws).1, 0) := by
  constructor
  · rw [runPipeline_fst]
    exact persistAccepted_nodup _ db h
  · have hnil :
        (process cfg raws (listingIdsOf (runPipeline db cfg configId raws).1)).accepted
          = [] := by
      refine process_accepted_nil cfg raws (listingIdsOf db) _ ?_ ?_
      · intro x hx
        rw [runPipeline_fst]
        exact mem_listingIdsOf_persistAccepted _ db x (Or.inl hx)
      · intro x hx
        rw [runPipeline_fst]
        refine mem_listingIdsOf_persistAccepted _ db x (Or.inr ?_)
        simpa [List.map_map, Function.comp_def, toListingRow] using hx
    show (persistAccepted (runPipeline db cfg configId raws).1 _, _) = _
    rw [hnil]
    simp [persistAccepted]

/-- C1 witness: the statement at an empty table, the section 8 filter
set and a two-element raw batch. -/
theorem pipeline_run_twice_idempotent_witness :
    (listingIdsOf (runPipeline [] cfgW 7 [rawA, rawB]).1).Nodup ∧
    runPipeline (runPipeline [] cfgW 7 [rawA, rawB]).1 cfgW 7 [rawA, rawB] =
      ((runPipeline [] cfgW 7 [rawA, rawB]).1, 0) :=
  pipeline_run_twice_idempotent [] cfgW 7 [rawA, rawB] (by decide)

/-- Helper: digitChar is injective below 10. -/
theorem digitChar_inj_lt10 :
    ∀ m < 10, ∀ n < 10, Nat.digitChar m = Nat.digitChar n → m = n := by
  decide

/-- Helper: digitsRec never returns the empty list. -/
theorem digitsRec_ne_nil (n : Nat) : digitsRec n ≠ [] := by
  unfold digitsRec
  split <;> simp

/-- Helper: the fuelled core of Nat.repr computes digitsRec whenever the
fuel exceeds the number. -/
theorem toDigitsCore_eq_digitsRec :
    ∀ (fuel n : Nat) (ds : List Char), n < fuel →
      Nat.toDigitsCore 10 fuel n ds = digitsRec n ++ ds := by
  intro fuel
  induction fuel with
  | zero =>
    intro n ds h
    omega
  | succ fuel ih =>
    intro n ds h
    simp only [Nat.toDigitsCore]
    by_cases h0 : n / 10 = 0
    · have hq := Nat.div_add_mod n 10
      have hr : n % 10 < 10 := Nat.mod_lt _ (by omega)
      have hn : n < 10 := by omega
      rw [if_pos h0]
      rw [Nat.mod_eq_of_lt hn]
      unfold digitsRec
      rw [dif_pos hn]
      rfl
    · have hge : ¬ n < 10 := fun hlt => h0 (Nat.div_eq_of_lt hlt)
      have hdiv : n / 10 < n := Nat.div_lt_self (by omega) (by omega)
      rw [if_neg h0]
      rw [ih (n / 10) (Nat.digitChar (n % 10) :: ds) (by omega)]
      conv_rhs => rw [digitsRec]
      rw [dif_neg hge]
      simp

/-- Helper: digitsRec on a single digit. -/
theorem digitsRec_lt (n : Nat) (h : n < 10) : digitsRec n = [Nat.digitChar n] := by
  unfold digitsRec
  rw [dif_pos h]

/-- Helper: digitsRec on a number of at least two digits. -/
theorem digitsRec_ge (n : Nat) (h : ¬ n < 10) :
    digitsRec n = digitsRec (n / 10) ++ [Nat.digitChar (n % 10)] := by
  conv_lhs => rw [digitsRec]
  rw [dif_neg h]

/-- Helper: digitsRec is injective. -/
theorem digitsRec_inj : ∀ m n : Nat, digitsRec m = digitsRec n → m = n := by
  intro m
  induction m using Nat.strong_induction_on with
  | _ m ih =>
    intro n h
    by_cases hm : m < 10
    · by_cases hn : n < 10
      · rw [digitsRec_lt m hm, digitsRec_lt n hn] at h
        have := List.head_eq_of_cons_eq h
        exact digitChar_inj_lt10 m hm n hn this
      · exfalso
        rw [digitsRec_lt m hm, digitsRec_ge n hn] at h
        have hlen := congrArg List.length h
        simp only [List.length_cons, List.length_nil, List.length_append] at hlen
        have hzero : (digitsRec (n / 10)).length = 0 := by omega
        exact digitsRec_ne_nil (n / 10) (List.length_eq_zero.mp hzero)
    · by_cases hn : n < 10
      · exfalso
        rw [digitsRec_ge m hm, digitsRec_lt n hn] at h
        have hlen := congrArg List.length h
        simp only [List.length_cons, List.length_nil, List.length_append] at hlen
        have hzero : (digitsRec (m / 10)).length = 0 := by omega
        exact digitsRec_ne_nil (m / 10) (List.length_eq_zero.mp hzero)
      · rw [digitsRec_ge m hm, digitsRec_ge n hn] at h
        obtain ⟨h1, h2⟩ := List.append_inj' h (by simp)
        have hmod : m % 10 = n % 10 := by
          have := List.head_eq_of_cons_eq h2
          exact digitChar_inj_lt10 _ (Nat.mod_lt _ (by omega)) _
            (Nat.mod_lt _ (by omega)) this
        have hdivlt : m / 10 < m := Nat.div_lt_self (by omega) (by omega)
        have hdiv : m / 10 = n / 10 := ih (m / 10) hdivlt (n / 10) h1
        have em := Nat.div_add_mod m 10
        have en := Nat.div_add_mod n 10
        omega

/-- Helper: Nat.repr is injective. -/
theorem nat_repr_inj {m n : Nat} (h : Nat.repr m = Nat.repr n) : m = n := by
  apply digitsRec_inj
  have hm : Nat.toDigits 10 m = digitsRec m := by
    have := toDigitsCore_eq_digitsRec (m + 1) m [] (Nat.lt_succ_self m)
    simpa [Nat.toDigits] using this
  have hn : Nat.toDigits 10 n = digitsRec n := by
    have := toDigitsCore_eq_digitsRec (n + 1) n [] (Nat.lt_succ_self n)
    simpa [Nat.toDigits] using this
  simp only [Nat.repr, hm, hn] at h
  have h2 := congrArg String.data h
  simpa [List.asString] using h2

/-- Helper: appending to a fixed string on the left is cancellable. -/
theorem string_data_append (s t : String) : (s ++ t).data = s.data ++ t.data := by
  cases s
  cases t
  rfl

/-- Helper: two different counters propose different names. -/
theorem proposedName_inj {a b : Nat} (h : proposedName a = proposedName b) :
    a = b := by
  have hdata := congrArg String.data h
  simp only [proposedName, string_data_append] at hdata
  have h1 : (toString a).data = (toString b).data := by
    simpa [List.append_assoc] using hdata
  have h3 : Nat.repr a = Nat.repr b := String.ext h1
  exact nat_repr_inj h3

/-- Helper: within existingSearches.length + 1 candidate counters, one
proposed name is always free (there are more candidates than existing
names and distinct counters propose distinct names). -/
theorem exists_free_counter (searches : List UISearchConfig) :
    ∃ k, k < searches.length + 1 ∧
      nameTaken searches (proposedName (1 + k)) = false := by
  by_contra hcon
  push_neg at hcon
  have htaken : ∀ k, k < searches.length + 1 →
      proposedName (1 + k) ∈ searches.map UISearchConfig.name := by
    intro k hk
    have hb := hcon k hk
    have hb2 : nameTaken searches (proposedName (1 + k)) = true := by
      cases hnt : nameTaken searches (proposedName (1 + k)) with
      | false => exact absurd hnt hb
      | true => rfl
    rw [nameTaken, List.any_eq_true] at hb2
    obtain ⟨s, hs, hbeq⟩ := hb2
    exact List.mem_map.mpr ⟨s, hs, by simpa using hbeq⟩
  have hinj : Set.InjOn (fun k => proposedName (1 + k))
      ↑(Finset.range (searches.length + 1)) := by
    intro i _ j _ hij
    have := proposedName_inj hij
    omega
  have hmaps : ∀ k ∈ Finset.range (searches.length + 1),
      proposedName (1 + k) ∈ (searches.map UISearchConfig.name).toFinset := by
    intro k hk
    rw [List.mem_toFinset]
    exact htaken k (Finset.mem_range.mp hk)
  have hcard := Finset.card_le_card_of_injOn _ hmaps hinj
  rw [Finset.card_range] at hcard
  have hle : (searches.map UISearchConfig.name).toFinset.card ≤ searches.length := by
    have := (searches.map UISearchConfig.name).toFinset_card_le
    simpa using this
  omega

/-- Helper: the fuelled loop returns the least untaken counter from the
start value onward, provided a free counter lies within the fuel. -/
theorem defaultNameLoop_spec (searches : List UISearchConfig) :
    ∀ (fuel counter : Nat),
      (∃ k, k < fuel ∧ nameTaken searches (proposedName (counter + k)) = false) →
      ∃ N, counter ≤ N ∧
        defaultNameLoop searches counter fuel = proposedName N ∧
        nameTaken searches (proposedName N) = false ∧
        ∀ M, counter ≤ M → M < N → nameTaken searches (proposedName M) = true := by
  intro fuel
  induction fuel with
  | zero =>
    intro counter h
    obtain ⟨k, hk, _⟩ := h
    omega
  | succ fuel ih =>
    intro counter h
    by_cases ht : nameTaken searches (proposedName counter) = true
    · have h2 : ∃ k, k < fuel ∧
          nameTaken searches (proposedName (counter + 1 + k)) = false := by
        obtain ⟨k, hk, hfree⟩ := h
        cases k with
        | zero =>
          rw [Nat.add_zero] at hfree
          rw [ht] at hfree
          exact absurd hfree (by simp)
        | succ k =>
          refine ⟨k, by omega, ?_⟩
          have heq : counter + (k + 1) = counter + 1 + k := by omega
          rwa [heq] at hfree
      obtain ⟨N, hN1, hN2, hN3, hN4⟩ := ih (counter + 1) h2
      refine ⟨N, by omega, ?_, hN3, ?_⟩
      · simp only [defaultNameLoop, ht, if_true]
        exact hN2
      · intro M hM1 hM2
        by_cases hMc : M = counter
        · rwa [hMc]
        · exact hN4 M (by omega) hM2
    · have hfalse : nameTaken searches (proposedName counter) = false := by
        cases hnt : nameTaken searches (proposedName counter) with
        | true => exact absurd hnt ht
        | false => rfl
      refine ⟨counter, Nat.le_refl _, ?_, hfalse, ?_⟩
      · simp [defaultNameLoop, hfalse]
      · intro M hM1 hM2
        omega

/-- C10: generateDefaultName returns a name of the form "Your Search N"
with N at least 1 that differs from the name of every existing search,
and every smaller counter from 1 upward is taken, so N is the smallest
such counter. -/
theorem generateDefaultName_fresh_minimal (searches : List UISearchConfig) :
    ∃ N, 1 ≤ N ∧
      generateDefaultName searches = proposedName N ∧
      nameTaken searches (generateDefaultName searches) = false ∧
      ((List.range (N - 1)).map (fun i => proposedName (i + 1))).all
        (nameTaken searches) = true := by
  obtain ⟨k, hk, hfree⟩ := exists_free_counter searches
  obtain ⟨N, hN1, hN2, hN3, hN4⟩ :=
    defaultNameLoop_spec searches (searches.length + 1) 1 ⟨k, hk, hfree⟩
  refine ⟨N, hN1, hN2, ?_, ?_⟩
  · show nameTaken searches (defaultNameLoop searches 1 (searches.length + 1)) = false
    rw [hN2]
    exact hN3
  · rw [List.all_eq_true]
    intro x hx
    simp only [List.mem_map, List.mem_range] at hx
    obtain ⟨i, hi, rfl⟩ := hx
    exact hN4 (i + 1) (by omega) (by omega)

end WgGesucht
